import Mathlib

/-!
Verification of the publication-list builder (`pubgrab.py`).

The program resolves an author name to a CRISTIN person id, fetches the
author's publication records, formats journal-article citations as HTML
paragraphs, and assembles them into an HTML document.  Network calls are
modelled as explicit oracle functions (`search`, `net`) passed to the
embedded functions, together with a log of the URLs actually requested.
Python dictionary accesses that may raise `KeyError` are modelled with
`Option` fields and an `Except` monad; an uncaught exception corresponds
to an `Except.error` value that aborts the enclosing computation.
-/

namespace PubGrab

/-- A single author structure inside a record's common data
(`etternavn` = surname, `fornavn` = given name). -/
structure Author where
  etternavn : String
  fornavn : String
deriving DecidableEq

/-- The `person` field of a record's common data: the registry returns either
a single structure (one author) or a list of structures (several authors).
The script branches on `type(...) == list` versus `type(...) == dict`. -/
inductive PersonField where
  | single (a : Author)
  | multiple (authors : List Author)
deriving DecidableEq

/-- Common data of a publication record (`fellesdata`).  The script reads
`ar` (year) and `person` unguardedly; `tittel` is read unguardedly inside the
formatting loop, so it is modelled as optional to expose the `KeyError`. -/
structure Fellesdata where
  id : String
  ar : String
  tittel : Option String
  person : PersonField
deriving DecidableEq

/-- Category-specific data for a journal article (`tidsskriftsartikkel`).
`tidsskrift_navn` models the nested `['tidsskrift']['navn']` access (read
unguardedly); `volum`, `artikkelnr` and `doi` are read inside
`try ... except KeyError` blocks. -/
structure Tidsskriftsartikkel where
  tidsskrift_navn : Option String
  volum : Option String
  artikkelnr : Option String
  doi : Option String
deriving DecidableEq

/-- One entry of the `kategoridata` mapping: either the recognized
journal-article category or some other category key (ignored by the loop). -/
inductive CatEntry where
  | tidsskriftsartikkel (t : Tidsskriftsartikkel)
  | other (key : String)
deriving DecidableEq

/-- A publication record (`forskningsresultat` element): common data plus
category data. -/
structure Record where
  fellesdata : Fellesdata
  kategoridata : List CatEntry
deriving DecidableEq

/-- The parsed response of the publication-listing endpoint: a mapping whose
`forskningsresultat` key holds the list of records. -/
structure PubsResponse where
  forskningsresultat : List Record
deriving DecidableEq

/-- One candidate returned by the person-search endpoint; the script reads
only its `cristin_person_id` field. -/
structure PersonRec where
  cristin_person_id : Int
deriving DecidableEq

/-- An author reference supplied by the caller: a numeric person id or a
display name — `cristin_person_id` accepts both (`int(author)`). -/
inductive AuthorRef where
  | id (n : Int)
  | name (s : String)
deriving DecidableEq

/-- ASCII decimal digit test (the digits accepted by `int()` for the inputs
this program deals with). -/
def isDigitChar (c : Char) : Bool :=
  48 ≤ c.toNat && c.toNat ≤ 57

/-- Numeric value of one ASCII digit. -/
def digitVal (c : Char) : Nat := c.toNat - 48

/-- Value of a big-endian digit list. -/
def digitsVal (l : List Char) : Nat :=
  l.foldl (fun n c => 10 * n + digitVal c) 0

/-- Whitespace stripped by Python's `int()` before parsing. -/
def pyIsSpace (c : Char) : Bool :=
  c == ' ' || c == '\t' || c == '\n' || c == '\x0d' || c == '\x0b' || c == '\x0c'

/-- Parse a nonempty all-digit character list, as the digit part of
Python's `int()`. -/
def parseDigits (l : List Char) : Option Nat :=
  if l.isEmpty then none
  else if l.all isDigitChar then some (digitsVal l)
  else none

/-- Python `int(s)` on a string: strip surrounding whitespace, optional
sign, then a nonempty run of decimal digits; `none` models `ValueError`. -/
def pyIntOfString (s : String) : Option Int :=
  match (s.data.dropWhile pyIsSpace).reverse.dropWhile pyIsSpace |>.reverse with
  | '+' :: rest => (parseDigits rest).map Int.ofNat
  | '-' :: rest => (parseDigits rest).map (fun n => -(n : Int))
  | l => (parseDigits l).map Int.ofNat

/-- Python `int(author)` on either an integer or a string argument. -/
def pyInt : AuthorRef → Option Int
  | .id n => some n
  | .name s => pyIntOfString s

/-- The text sent as the `name` query parameter when searching. -/
def authorQuery : AuthorRef → String
  | .id n => toString n
  | .name s => s

/-- `cristin_person_id(author)`: return `int(author)` directly when it
parses; otherwise search by name and return the first candidate's id, or
`None` when there is no candidate.  The second component counts the network
requests performed. -/
def cristin_person_id (search : String → List PersonRec) (author : AuthorRef) :
    Option Int × Nat :=
  match pyInt author with
  | some n => (some n, 0)
  | none =>
    match search (authorQuery author) with
    | [] => (none, 1)
    | p :: _ => (some p.cristin_person_id, 1)

/-- Python `str(...)` applied to the resolver result when it is interpolated
into the query string: `str(None)` is the text `None`. -/
def pyStrOptInt : Option Int → String
  | some n => toString n
  | none => "None"

/-- Join strings with a separator and no trailing separator. -/
def joinSep (sep : String) : List String → String
  | [] => ""
  | [x] => x
  | x :: y :: xs => x ++ sep ++ joinSep sep (y :: xs)

/-- `urllib.parse.urlencode` restricted to the values this program passes
(letters, digits and empty strings, which `quote_plus` leaves unchanged):
`k1=v1&k2=v2&...`. -/
def urlencode (params : List (String × String)) : String :=
  joinSep "&" (params.map (fun kv => kv.1 ++ "=" ++ kv.2))

/-- `pubs_by(author, fra, til, hovedkategori)`: resolve the author, build the
legacy-endpoint URL from whatever the resolver returned, and issue the
request.  Returns the parsed response together with the log of URLs
requested by this function (always exactly one — it requests even when the
resolver returned `None`). -/
def pubs_by (search : String → List PersonRec) (net : String → PubsResponse)
    (author : AuthorRef) (fra til hovedkategori : String) :
    PubsResponse × List String :=
  let cpid := (cristin_person_id search author).1
  let url := "http://www.cristin.no/ws/hentVarbeiderPerson?" ++
    urlencode [("lopenr", pyStrOptInt cpid), ("fra", fra), ("til", til),
      ("hovedkategori", hovedkategori), ("format", "json")]
  (net url, [url])

/-- The module-level `citation(pub)` function: its body is only a docstring,
so it returns `None` for every input. -/
def citation (pub : Record) : Option String := none

/-- The uncaught Python exception relevant to this script: `KeyError` from
an unguarded dictionary access. -/
inductive PyErr where
  | keyError
deriving DecidableEq

/-- An unguarded dictionary access `d[k]`: raises `KeyError` when absent. -/
def getKey : Option String → Except PyErr String
  | some v => .ok v
  | none => .error .keyError

/-- `''.join(c for c in s if c.isupper())`: the uppercase letters of `s`
in order of appearance. -/
def initials (s : String) : String := ⟨s.data.filter Char.isUpper⟩

/-- One author entry rendered as surname, space, initials. -/
def renderAuthor (a : Author) : String :=
  a.etternavn ++ " " ++ initials a.fornavn

/-- Python `s[:-2]`: drop the final two characters. -/
def pySliceDropLast2 (s : String) : String := ⟨s.data.dropLast.dropLast⟩

/-- The author-list string built by the main loop: in the list case, append
surname, space, initials and `, ` for each author and slice off the final
`, `; in the single-structure case, build the one entry directly. -/
def authorsOf : PersonField → String
  | .multiple ks =>
    pySliceDropLast2 (ks.foldl (fun acc k => acc ++ (renderAuthor k ++ ", ")) "")
  | .single k => k.etternavn ++ " " ++ initials k.fornavn

/-- The body of the recognized-category branch: read title, year and journal
name (unguarded — `KeyError` aborts), read article number, volume and DOI
inside `try`/`except` (absent means empty string), then concatenate the
HTML paragraph. -/
def formatArticle (authors : String) (fd : Fellesdata) (t : Tidsskriftsartikkel) :
    Except PyErr String := do
  let tittel ← getKey fd.tittel
  let year := fd.ar
  let navn ← getKey t.tidsskrift_navn
  let journal := "<em>" ++ navn ++ "</em>"
  let articlenr := match t.artikkelnr with
    | some v => v
    | none => ""
  let volum := match t.volum with
    | some v => "<strong>(" ++ v ++ ")</strong>"
    | none => ""
  let doiStr := match t.doi with
    | some d => "http://dx.doi.org/" ++ d
    | none => ""
  pure ("<p> " ++ authors ++ " (" ++ year ++ "). " ++ tittel ++ " " ++ journal ++
    " " ++ volum ++ " " ++ articlenr ++ " " ++ doiStr ++ "</p>")

/-- Process one record of the sorted list: build the author string, then walk
its category entries, emitting one HTML paragraph for each recognized
journal-article entry; other categories are skipped.  An uncaught `KeyError`
propagates. -/
def processRecord (r : Record) : Except PyErr (List String) :=
  let authors := authorsOf r.fellesdata.person
  r.kategoridata.foldlM (fun acc entry =>
    match entry with
    | CatEntry.tidsskriftsartikkel t => do
      let s ← formatArticle authors r.fellesdata t
      pure (acc ++ [s])
    | CatEntry.other _ => pure acc) ([] : List String)

/-- Python string comparison (`<`) on character lists: lexicographic by code
point. -/
def lexLt : List Char → List Char → Bool
  | [], [] => false
  | [], _ :: _ => true
  | _ :: _, [] => false
  | a :: as, b :: bs =>
    if a.toNat < b.toNat then true
    else if b.toNat < a.toNat then false
    else lexLt as bs

/-- Python `s < t` on strings. -/
def pyStrLt (s t : String) : Bool := lexLt s.data t.data

/-- Python `s <= t` on strings. -/
def pyStrLe (s t : String) : Bool := !(pyStrLt t s)

/-- The sort key of the main script: the record's year field (a string). -/
def yearOf (r : Record) : String := r.fellesdata.ar

/-- The year field read as a decimal number. -/
def yearNat (r : Record) : Nat := digitsVal (yearOf r).data

/-- Ordering used to embed `sorted(..., key=lambda k: k['fellesdata']['ar'],
reverse=True)`: `a` may precede `b` when `a`'s year is not smaller than
`b`'s in Python string order. -/
def sortLe (a b : Record) : Bool := !(pyStrLt (yearOf a) (yearOf b))

/-- `data_sort`: the records sorted by year string, newest first, stably
(Python's `sorted` is a stable sort; `reverse=True` reverses the comparison
but keeps equal-key elements in their original order). -/
def data_sort (l : List Record) : List Record := l.mergeSort sortLe

/-- The citation-collection loop of `__main__`: sort, then process each
record in order, accumulating `html_codes_all`; an uncaught `KeyError`
aborts the whole computation. -/
def buildCitations (l : List Record) : Except PyErr (List String) :=
  (data_sort l).foldlM (fun acc r => do
    let cs ← processRecord r
    pure (acc ++ cs)) ([] : List String)

/-- The fixed HTML prologue written before the citations. -/
def htmlStart : String :=
  "\n    <!DOCTYPE html>\n    <HTML>\n        <head>\n            <meta charset=\"utf-8\">\n        </head>\n\n        <body>\n            <h1>References</h1>\n    "

/-- The fixed HTML epilogue written after the citations. -/
def htmlEnd : String :=
  "\n        </body>\n    </HTML>\n    "

/-- The document written to the output file: prologue, one tab-indented line
per citation, epilogue. -/
def assembleDocument (citations : List String) : String :=
  htmlStart ++ citations.foldl (fun acc i => acc ++ ("\t\t" ++ i ++ "\n")) "" ++ htmlEnd

/-- Modelled from the spec: the author-list rendering described in §4.3 —
normalize the union-shaped author field to a sequence. -/
def normalizeAuthors : PersonField → List Author
  | .single a => [a]
  | .multiple ks => ks

/-- Does `s` start with `pat`? -/
def startsWithChars : List Char → List Char → Bool
  | _, [] => true
  | [], _ :: _ => false
  | a :: as, b :: bs => a == b && startsWithChars as bs

/-- Does `pat` occur contiguously inside `s`? -/
def hasSubChars (s pat : List Char) : Bool :=
  match s with
  | [] =>
    match pat with
    | [] => true
    | _ :: _ => false
  | _ :: rest => startsWithChars s pat || hasSubChars rest pat

/-- Does the string `pat` occur contiguously inside `s`? -/
def containsSub (s pat : String) : Bool := hasSubChars s.data pat.data

/-- A search oracle that finds no candidate for any name. -/
def emptySearch : String → List PersonRec := fun _ => []

/-- A network oracle returning an empty record list for any URL. -/
def emptyNet : String → PubsResponse := fun _ => ⟨[]⟩

/-- A concrete author used by the examples. -/
def vik : Author := ⟨"Vik", "Jon Olav"⟩

/-- A 2014 journal-article record with every field present. -/
def rec2014 : Record :=
  ⟨⟨"1", "2014", some "T", .single vik⟩,
    [.tidsskriftsartikkel ⟨some "J", some "53", some "e1", some "10.1/x"⟩]⟩

/-- A 2010 journal-article record with every field present. -/
def rec2010 : Record :=
  ⟨⟨"2", "2010", some "U", .single ⟨"Gjuvsland", "Arne Bjorke"⟩⟩,
    [.tidsskriftsartikkel ⟨some "K", some "5", some "e9379", some "10.2/y"⟩]⟩

/-- A record whose year string is the three-character `999`. -/
def recY999 : Record := ⟨⟨"3", "999", some "T", .single vik⟩, []⟩

/-- A record whose year string is the four-character `1000`. -/
def recY1000 : Record := ⟨⟨"4", "1000", some "T", .single vik⟩, []⟩

/-- A journal-article record whose common data lacks the `tittel` key. -/
def recNoTitle : Record :=
  ⟨⟨"5", "2014", none, .single vik⟩,
    [.tidsskriftsartikkel ⟨some "J", some "53", some "e1", some "10.1/x"⟩]⟩

/-- A journal-article record lacking the optional `volum` key. -/
def recNoVol : Record :=
  ⟨⟨"6", "2014", some "T", .single vik⟩,
    [.tidsskriftsartikkel ⟨some "J", none, some "e7", some "10.1/x"⟩]⟩

/- Theorems. -/

/-- C10: the module-level `citation` function, documented as producing the
citation of a single publication, has an empty body (only a docstring) and
returns `None` for every input record. -/
theorem citation_returns_none : ∀ pub : Record, citation pub = none :=
  fun _ => rfl

/-- C7: for every input to the identifier resolver that is parseable as an
integer (a numeric string or an integer), `cristin_person_id` returns that
integer value directly and performs no network request, whatever the search
oracle would answer. -/
theorem resolver_numeric_direct (search : String → List PersonRec)
    (author : AuthorRef) (n : Int) (h : pyInt author = some n) :
    cristin_person_id search author = (some n, 0) := by
  unfold cristin_person_id
  rw [h]

/-- Witness for C7: the numeric string input of the docstring example. -/
theorem resolver_numeric_direct_witness :
    pyInt (AuthorRef.name "22311") = some 22311 ∧
      cristin_person_id emptySearch (AuthorRef.name "22311") = (some 22311, 0) :=
  ⟨by decide, resolver_numeric_direct emptySearch (AuthorRef.name "22311") 22311 (by decide)⟩

/-- C8: for every non-numeric name whose search response is empty, the
resolver returns the explicit not-found value `None` (total, no exception);
for a non-empty response it returns the first candidate's person id.  Either
way exactly one request is made. -/
theorem resolver_name_search_first_or_none (search : String → List PersonRec)
    (s : String) (h : pyInt (AuthorRef.name s) = none) :
    (search s = [] → cristin_person_id search (AuthorRef.name s) = (none, 1)) ∧
      (∀ p ps, search s = p :: ps →
        cristin_person_id search (AuthorRef.name s) = (some p.cristin_person_id, 1)) := by
  constructor
  · intro he
    unfold cristin_person_id
    rw [h]
    simp [authorQuery, he]
  · intro p ps he
    unfold cristin_person_id
    rw [h]
    simp [authorQuery, he]

/-- Witness for C8: the docstring's unknown name with an empty search
result resolves to `None` after one request. -/
theorem resolver_name_search_witness :
    cristin_person_id emptySearch (AuthorRef.name "Does not exist") = (none, 1) :=
  (resolver_name_search_first_or_none emptySearch "Does not exist" (by decide)).1 rfl

/-- The author fold factors over its accumulator. -/
theorem foldl_authors_acc (ks : List Author) :
    ∀ acc : String,
      ks.foldl (fun acc k => acc ++ (renderAuthor k ++ ", ")) acc =
        acc ++ ks.foldl (fun acc k => acc ++ (renderAuthor k ++ ", ")) "" := by
  induction ks with
  | nil => intro acc; simp
  | cons k ks ih =>
    intro acc
    simp only [List.foldl_cons]
    rw [ih (acc ++ (renderAuthor k ++ ", ")), ih ("" ++ (renderAuthor k ++ ", "))]
    rw [String.empty_append, String.append_assoc]

/-- On a nonempty author list, the fold builds the comma-joined rendering
followed by one trailing separator. -/
theorem foldl_authors_trail (ks : List Author) :
    ∀ acc : String, ks ≠ [] →
      ks.foldl (fun a x => a ++ (renderAuthor x ++ ", ")) acc =
        acc ++ (joinSep ", " (ks.map renderAuthor) ++ ", ") := by
  induction ks with
  | nil => intro acc h; exact absurd rfl h
  | cons k ks ih =>
    intro acc h
    rw [List.foldl_cons]
    cases ks with
    | nil => simp [joinSep]
    | cons k2 ks2 =>
      rw [ih (acc ++ (renderAuthor k ++ ", ")) (by simp)]
      simp [joinSep, String.append_assoc]

/-- Dropping the last two characters undoes a trailing `, `. -/
theorem slice_append_sep (s : String) : pySliceDropLast2 (s ++ ", ") = s := by
  apply String.ext
  show (s ++ ", ").data.dropLast.dropLast = s.data
  rw [String.data_append]
  have h : s.data ++ (", ").data = (s.data ++ [',']) ++ [' '] := by
    simp
  rw [h, List.dropLast_concat, List.dropLast_concat]

/-- The code's author-list string on a list of authors equals the
comma-joined rendering with no trailing separator. -/
theorem authorsOf_multiple (ks : List Author) :
    authorsOf (.multiple ks) = joinSep ", " (ks.map renderAuthor) := by
  cases ks with
  | nil => rfl
  | cons k ks =>
    show pySliceDropLast2 _ = _
    rw [foldl_authors_trail (k :: ks) "" (by simp), String.empty_append]
    exact slice_append_sep _

/-- C6: for every publication record, the author-list string equals the
rendering in which each author entry is surname, space, and the uppercase
letters of the given name in order, entries joined by `, ` with no trailing
separator; and a single-structure author field produces the same string as
the equivalent one-element sequence. -/
theorem authors_rendering_spec :
    (∀ p : PersonField,
        authorsOf p = joinSep ", " ((normalizeAuthors p).map renderAuthor)) ∧
      (∀ a : Author, authorsOf (.single a) = authorsOf (.multiple [a])) := by
  constructor
  · intro p
    cases p with
    | single a => rfl
    | multiple ks => exact authorsOf_multiple ks
  · intro a
    rw [authorsOf_multiple [a]]
    rfl

/-- Characters with equal code points are equal. -/
theorem char_toNat_inj {a b : Char} (h : a.toNat = b.toNat) : a = b := by
  have h2 := congrArg Char.ofNat h
  rwa [Char.ofNat_toNat, Char.ofNat_toNat] at h2

/-- Python string comparison is irreflexive. -/
theorem lexLt_irrefl (a : List Char) : lexLt a a = false := by
  induction a with
  | nil => rfl
  | cons c cs ih => simp [lexLt, ih]

/-- Python string comparison is asymmetric. -/
theorem lexLt_asymm (a : List Char) :
    ∀ b, lexLt a b = true → lexLt b a = false := by
  induction a with
  | nil =>
    intro b h
    cases b with
    | nil => simp [lexLt] at h
    | cons d ds => rfl
  | cons c cs ih =>
    intro b h
    cases b with
    | nil => simp [lexLt] at h
    | cons d ds =>
      simp only [lexLt] at h ⊢
      by_cases h1 : c.toNat < d.toNat
      · simp [h1, Nat.lt_asymm h1]
      · by_cases h2 : d.toNat < c.toNat
        · simp [h1, h2] at h
        · have h3 : lexLt cs ds = true := by simpa [h1, h2] using h
          simp [h1, h2, ih ds h3]

/-- Python string comparison is connected: incomparable lists are equal. -/
theorem lexLt_connex (a : List Char) :
    ∀ b, lexLt a b = false → lexLt b a = false → a = b := by
  induction a with
  | nil =>
    intro b h1 _
    cases b with
    | nil => rfl
    | cons d ds => simp [lexLt] at h1
  | cons c cs ih =>
    intro b h1 h2
    cases b with
    | nil => simp [lexLt] at h2
    | cons d ds =>
      simp only [lexLt] at h1 h2
      by_cases hcd : c.toNat < d.toNat
      · simp [hcd] at h1
      · by_cases hdc : d.toNat < c.toNat
        · simp [hdc] at h2
        · have hc : c = d := char_toNat_inj (Nat.le_antisymm
            (Nat.le_of_not_lt hdc) (Nat.le_of_not_lt hcd))
          have h1a : lexLt cs ds = false := by simpa [hcd, hdc] using h1
          have h2a : lexLt ds cs = false := by
            simpa [hcd, hdc] using h2
          rw [hc, ih ds h1a h2a]

/-- Python string comparison is transitive. -/
theorem lexLt_trans (a : List Char) :
    ∀ b c, lexLt a b = true → lexLt b c = true → lexLt a c = true := by
  induction a with
  | nil =>
    intro b c hab hbc
    cases b with
    | nil => simp [lexLt] at hab
    | cons y ys =>
      cases c with
      | nil => simp [lexLt] at hbc
      | cons z zs => rfl
  | cons x xs ih =>
    intro b c hab hbc
    cases b with
    | nil => simp [lexLt] at hab
    | cons y ys =>
      cases c with
      | nil => simp [lexLt] at hbc
      | cons z zs =>
        simp only [lexLt] at hab hbc ⊢
        by_cases hxy : x.toNat < y.toNat
        · by_cases hyz : y.toNat < z.toNat
          · simp [Nat.lt_trans hxy hyz]
          · by_cases hzy : z.toNat < y.toNat
            · simp [hyz, hzy] at hbc
            · have hy : y.toNat = z.toNat := Nat.le_antisymm
                (Nat.le_of_not_lt hzy) (Nat.le_of_not_lt hyz)
              simp [hy ▸ hxy]
        · by_cases hyx : y.toNat < x.toNat
          · simp [hxy, hyx] at hab
          · have hx : x.toNat = y.toNat := Nat.le_antisymm
              (Nat.le_of_not_lt hyx) (Nat.le_of_not_lt hxy)
            have hab2 : lexLt xs ys = true := by simpa [hxy, hyx] using hab
            by_cases hyz : y.toNat < z.toNat
            · simp [hx ▸ hyz]
            · by_cases hzy : z.toNat < y.toNat
              · simp [hyz, hzy] at hbc
              · have hbc2 : lexLt ys zs = true := by simpa [hyz, hzy] using hbc
                have hxz : ¬ x.toNat < z.toNat := by omega
                have hzx : ¬ z.toNat < x.toNat := by omega
                simp [hxz, hzx, ih ys zs hab2 hbc2]

/-- The embedded sort order is total. -/
theorem sortLe_total (a b : Record) : sortLe a b || sortLe b a := by
  rw [sortLe, sortLe, pyStrLt, pyStrLt]
  by_cases h : lexLt (yearOf a).data (yearOf b).data = true
  · simp [lexLt_asymm _ _ h]
  · simp [Bool.eq_false_iff.mpr h]

/-- The embedded sort order is transitive. -/
theorem sortLe_trans (a b c : Record) :
    sortLe a b → sortLe b c → sortLe a c := by
  simp only [sortLe, pyStrLt, Bool.not_eq_true', Bool.not_eq_eq_eq_not, Bool.not_true]
  intro hab hbc
  by_cases hac : lexLt (yearOf a).data (yearOf c).data = true
  · by_cases h1 : lexLt (yearOf b).data (yearOf a).data = true
    · have := lexLt_trans _ _ _ h1 hac
      rw [this] at hbc
      cases hbc
    · have hba := lexLt_connex _ _ hab (Bool.eq_false_iff.mpr h1)
      rw [← hba] at hbc
      rw [hbc] at hac
      cases hac
  · simpa using hac

/-- The sorted record list is pairwise non-increasing in the string order of
the year field. -/
theorem dataSort_pairwise (l : List Record) :
    (data_sort l).Pairwise (fun a b => sortLe a b = true) :=
  List.sorted_mergeSort (fun a b c => sortLe_trans a b c) sortLe_total l

/-- Stability of the sort: the records carrying any fixed year keep their
original relative order. -/
theorem dataSort_filter_year (l : List Record) (y : String) :
    (data_sort l).filter (fun r => yearOf r == y) =
      l.filter (fun r => yearOf r == y) := by
  have hpw : (l.filter (fun r => yearOf r == y)).Pairwise
      (fun a b => sortLe a b = true) := by
    apply List.pairwise_of_forall_mem_list
    intro a ha b hb
    have ha2 : yearOf a = y := by
      have := (List.mem_filter.mp ha).2
      simpa using this
    have hb2 : yearOf b = y := by
      have := (List.mem_filter.mp hb).2
      simpa using this
    rw [sortLe, pyStrLt, ha2, hb2]
    simp [lexLt_irrefl]
  have hsub : List.Sublist (l.filter (fun r => yearOf r == y)) (data_sort l) :=
    List.sublist_mergeSort (fun a b c => sortLe_trans a b c) sortLe_total
      hpw (List.filter_sublist l)
  have h2 := hsub.filter (fun r => yearOf r == y)
  rw [List.filter_filter] at h2
  simp only [Bool.and_self] at h2
  have hperm : List.Perm ((data_sort l).filter (fun r => yearOf r == y))
      (l.filter (fun r => yearOf r == y)) :=
    (List.mergeSort_perm l sortLe).filter _
  exact (h2.eq_of_length hperm.length_eq.symm).symm

/-- Evaluating the merge sort on a two-element list. -/
theorem mergeSort_pair {α : Type} (le : α → α → Bool) (a b : α) :
    [a, b].mergeSort le = if le a b then [a, b] else [b, a] := by
  rw [List.mergeSort]
  simp only [List.splitInTwo, List.splitAt_eq]
  norm_num
  by_cases h : le a b
  · simp [List.merge, h]
  · simp [List.merge, h]

/-- The digit fold factors over its accumulator. -/
theorem digitsVal_foldl (l : List Char) :
    ∀ n : Nat, l.foldl (fun n c => 10 * n + digitVal c) n =
      n * 10 ^ l.length + digitsVal l := by
  induction l with
  | nil => intro n; simp [digitsVal]
  | cons c cs ih =>
    intro n
    have hc : digitsVal (c :: cs) =
        (10 * 0 + digitVal c) * 10 ^ cs.length + digitsVal cs := by
      rw [digitsVal, List.foldl_cons, ih]
    rw [List.foldl_cons, ih, hc, List.length_cons, pow_succ]
    ring

/-- Value of a digit list with its leading digit split off. -/
theorem digitsVal_cons (c : Char) (cs : List Char) :
    digitsVal (c :: cs) = digitVal c * 10 ^ cs.length + digitsVal cs := by
  rw [digitsVal, List.foldl_cons]
  simpa using digitsVal_foldl cs (10 * 0 + digitVal c)

/-- A digit list's value is bounded by the power of ten of its length. -/
theorem digitsVal_lt_pow (l : List Char) (h : ∀ c ∈ l, isDigitChar c = true) :
    digitsVal l < 10 ^ l.length := by
  induction l with
  | nil => simp [digitsVal]
  | cons c cs ih =>
    have hc := h c (List.mem_cons_self c cs)
    have h9 : digitVal c ≤ 9 := by
      rw [isDigitChar] at hc
      simp at hc
      rw [digitVal]
      omega
    have hcs := ih (fun x hx => h x (List.mem_cons_of_mem c hx))
    have hgen : ∀ P : Nat, digitsVal cs < P →
        digitVal c * P + digitsVal cs < P * 10 := by
      intro P hlt
      nlinarith
    rw [digitsVal_cons, List.length_cons, pow_succ]
    exact hgen (10 ^ cs.length) hcs

/-- On digit lists of equal length, Python string comparison agrees with the
numeric comparison of their values. -/
theorem lexLt_val_lt (a : List Char) :
    ∀ b, a.length = b.length → (∀ c ∈ a, isDigitChar c = true) →
      (∀ c ∈ b, isDigitChar c = true) → lexLt a b = true →
      digitsVal a < digitsVal b := by
  induction a with
  | nil =>
    intro b hlen _ _ hlt
    cases b with
    | nil => simp [lexLt] at hlt
    | cons d ds => simp at hlen
  | cons c cs ih =>
    intro b hlen ha hb hlt
    cases b with
    | nil => simp at hlen
    | cons d ds =>
      have hn : cs.length = ds.length := by simpa using hlen
      have hcd : isDigitChar c = true := ha c (List.mem_cons_self c cs)
      have hdd : isDigitChar d = true := hb d (List.mem_cons_self d ds)
      have hacs : ∀ x ∈ cs, isDigitChar x = true :=
        fun x hx => ha x (List.mem_cons_of_mem c hx)
      have hbds : ∀ x ∈ ds, isDigitChar x = true :=
        fun x hx => hb x (List.mem_cons_of_mem d hx)
      rw [digitsVal_cons, digitsVal_cons, hn]
      simp only [lexLt] at hlt
      by_cases h1 : c.toNat < d.toNat
      · have hd : digitVal c < digitVal d := by
          rw [isDigitChar] at hcd hdd
          simp at hcd hdd
          rw [digitVal, digitVal]
          omega
        have hlt2 : digitsVal cs < 10 ^ ds.length :=
          hn ▸ digitsVal_lt_pow cs hacs
        have key : ∀ P u v x y : Nat, u < v → x < P →
            u * P + x < v * P + y := by
          intro P u v x y h1 h2
          nlinarith
        exact key _ _ _ _ _ hd hlt2
      · by_cases h2 : d.toNat < c.toNat
        · simp [h1, h2] at hlt
        · have hc : c = d := char_toNat_inj
            (Nat.le_antisymm (Nat.le_of_not_lt h2) (Nat.le_of_not_lt h1))
          have hlt3 : lexLt cs ds = true := by simpa [h1, h2] using hlt
          have hv := ih ds hn hacs hbds hlt3
          rw [hc]
          omega

/-- On records whose year strings are equal-length digit strings, the
embedded sort order implies numeric non-increase of the years. -/
theorem sortLe_yearNat {a b : Record}
    (hlen : (yearOf a).data.length = (yearOf b).data.length)
    (hda : ∀ c ∈ (yearOf a).data, isDigitChar c = true)
    (hdb : ∀ c ∈ (yearOf b).data, isDigitChar c = true)
    (h : sortLe a b = true) : yearNat b ≤ yearNat a := by
  have hlt : lexLt (yearOf a).data (yearOf b).data = false := by
    simpa [sortLe, pyStrLt] using h
  by_cases h2 : lexLt (yearOf b).data (yearOf a).data = true
  · exact Nat.le_of_lt (lexLt_val_lt _ _ hlen.symm hdb hda h2)
  · have he := lexLt_connex _ _ hlt (Bool.eq_false_iff.mpr h2)
    rw [yearNat, yearNat, he]

/-- C3: the document assembler sorts the records by year descending and
stably: the sorted list is pairwise non-increasing in the year key, records
with equal years keep their original relative order, and on the concrete
pair of records with distinct identifiers and years 2014 and 2010 the 2014
citation is emitted, and appears in the assembled document, strictly before
the 2010 citation. -/
theorem dataSort_descending_stable_order :
    (∀ l : List Record,
        (data_sort l).Pairwise (fun a b => pyStrLe (yearOf b) (yearOf a) = true)) ∧
      (∀ (l : List Record) (y : String),
        (data_sort l).filter (fun r => yearOf r == y) =
          l.filter (fun r => yearOf r == y)) ∧
      data_sort [rec2010, rec2014] = [rec2014, rec2010] ∧
      buildCitations [rec2010, rec2014] = Except.ok
        ["<p> Vik JO (2014). T <em>J</em> <strong>(53)</strong> e1 http://dx.doi.org/10.1/x</p>",
         "<p> Gjuvsland AB (2010). U <em>K</em> <strong>(5)</strong> e9379 http://dx.doi.org/10.2/y</p>"] ∧
      assembleDocument
          ["<p> Vik JO (2014). T <em>J</em> <strong>(53)</strong> e1 http://dx.doi.org/10.1/x</p>",
           "<p> Gjuvsland AB (2010). U <em>K</em> <strong>(5)</strong> e9379 http://dx.doi.org/10.2/y</p>"] =
        htmlStart ++
          ("\t\t" ++ "<p> Vik JO (2014). T <em>J</em> <strong>(53)</strong> e1 http://dx.doi.org/10.1/x</p>" ++ "\n") ++
          ("\t\t" ++ "<p> Gjuvsland AB (2010). U <em>K</em> <strong>(5)</strong> e9379 http://dx.doi.org/10.2/y</p>" ++ "\n") ++
        htmlEnd := by
  have hs : data_sort [rec2010, rec2014] = [rec2014, rec2010] := by
    rw [data_sort, mergeSort_pair]
    decide
  refine ⟨fun l => dataSort_pairwise l, dataSort_filter_year, hs, ?_, ?_⟩
  · rw [buildCitations, hs]
    rfl
  · rw [assembleDocument]
    simp [String.append_assoc]

/-- C9: the sort compares year fields as Python strings.  When every year in
the record set is a digit string of one common length, descending string
order coincides with descending numeric order; with years of different
lengths the two orders can disagree: the sort places the record with year
`999` strictly before the record with year `1000`, although `999 < 1000`
numerically. -/
theorem dataSort_string_year_comparison :
    (∀ (l : List Record) (n : Nat),
        (∀ r ∈ l, (yearOf r).data.length = n ∧
          (∀ c ∈ (yearOf r).data, isDigitChar c = true)) →
        (data_sort l).Pairwise (fun a b => yearNat b ≤ yearNat a)) ∧
      data_sort [recY1000, recY999] = [recY999, recY1000] ∧
      yearNat recY999 < yearNat recY1000 := by
  refine ⟨?_, ?_, by decide⟩
  · intro l n hl
    have hp := dataSort_pairwise l
    refine hp.imp_of_mem ?_
    intro a b ha hb hR
    have ha2 : a ∈ l := by
      rw [data_sort] at ha
      exact List.mem_mergeSort.mp ha
    have hb2 : b ∈ l := by
      rw [data_sort] at hb
      exact List.mem_mergeSort.mp hb
    have hA := hl a ha2
    have hB := hl b hb2
    exact sortLe_yearNat (by rw [hA.1, hB.1]) hA.2 hB.2 hR
  · rw [data_sort, mergeSort_pair]
    decide

/-- Witness for C9: on four-digit years the sorted list is numerically
non-increasing. -/
theorem dataSort_string_year_witness :
    (data_sort [rec2010, rec2014]).Pairwise (fun a b => yearNat b ≤ yearNat a) :=
  dataSort_string_year_comparison.1 [rec2010, rec2014] 4 (by decide)

/-- C4: for a journal-article record with all fields present, the formatted
citation is exactly the concatenation, in fixed order, of the author list,
the parenthesized year, the title, the journal in emphasis markup, the
volume in strong parenthesis markup, the article number, and the DOI
resolver URL built by prefixing `http://dx.doi.org/` to the raw DOI. -/
theorem article_citation_fixed_order (i ar : String) (person : PersonField)
    (T J V A D : String) :
    processRecord ⟨⟨i, ar, some T, person⟩,
        [CatEntry.tidsskriftsartikkel ⟨some J, some V, some A, some D⟩]⟩ =
      Except.ok ["<p> " ++ authorsOf person ++ " (" ++ ar ++ "). " ++ T ++
        " " ++ ("<em>" ++ J ++ "</em>") ++ " " ++ ("<strong>(" ++ V ++ ")</strong>") ++
        " " ++ A ++ " " ++ ("http://dx.doi.org/" ++ D) ++ "</p>"] := rfl

/-- C5 counterexample: on a record missing only the volume field the
formatted citation contains a double space, refuting the claim that no
whitespace artifact beyond a single space remains. -/
theorem missing_volume_double_space :
    processRecord recNoVol = Except.ok
      ["<p> Vik JO (2014). T <em>J</em>  e7 http://dx.doi.org/10.1/x</p>"] ∧
      containsSub "<p> Vik JO (2014). T <em>J</em>  e7 http://dx.doi.org/10.1/x</p>"
        "  " = true :=
  ⟨rfl, by decide⟩

/-- C5 amended (missing-volume case only, as the counterexample forces): for
a record missing the volume field the citation omits the volume markup
entirely — no `<strong>` wrapper and no parentheses from it — but the two
separator spaces around the omitted field both remain, leaving a double
space where the volume stood.  No statement is made here about the other
optional fields (a missing DOI, for instance, leaves only a single space
before the closing tag). -/
theorem missing_volume_omits_markup (i ar : String) (person : PersonField)
    (T J A D : String) :
    processRecord ⟨⟨i, ar, some T, person⟩,
        [CatEntry.tidsskriftsartikkel ⟨some J, none, some A, some D⟩]⟩ =
      Except.ok ["<p> " ++ authorsOf person ++ " (" ++ ar ++ "). " ++ T ++
        " " ++ ("<em>" ++ J ++ "</em>") ++ " " ++ "" ++ " " ++ A ++ " " ++
        ("http://dx.doi.org/" ++ D) ++ "</p>"] := rfl

/-- C1: when name resolution fails (`None`), `pubs_by` does not abort — it
builds the query string with the unresolved identifier rendered as the text
`None` and issues the publication request anyway, returning whatever the
network answers with no distinguishable error. -/
theorem pubsBy_requests_with_unresolved_id :
    cristin_person_id emptySearch (AuthorRef.name "Does not exist") = (none, 1) ∧
      (pubs_by emptySearch emptyNet (AuthorRef.name "Does not exist")
          "" "" "TIDSSKRIFTPUBL").2 =
        ["http://www.cristin.no/ws/hentVarbeiderPerson?lopenr=None&fra=&til=&hovedkategori=TIDSSKRIFTPUBL&format=json"] ∧
      containsSub
        "http://www.cristin.no/ws/hentVarbeiderPerson?lopenr=None&fra=&til=&hovedkategori=TIDSSKRIFTPUBL&format=json"
        "lopenr=None" = true :=
  ⟨rfl, rfl, by decide⟩

/-- C2: a record whose common data lacks the title key is not skipped — the
unguarded access raises `KeyError`, aborting the whole citation loop, so the
well-formed record after it is never formatted; alone, that same well-formed
record formats fine. -/
theorem formatting_abort_on_missing_title :
    buildCitations [recNoTitle, rec2014] = Except.error PyErr.keyError ∧
      buildCitations [rec2014] = Except.ok
        ["<p> Vik JO (2014). T <em>J</em> <strong>(53)</strong> e1 http://dx.doi.org/10.1/x</p>"] := by
  constructor
  · have hs : data_sort [recNoTitle, rec2014] = [recNoTitle, rec2014] := by
      rw [data_sort, mergeSort_pair]
      decide
    rw [buildCitations, hs]
    rfl
  · have hs : data_sort [rec2014] = [rec2014] := by
      rw [data_sort, List.mergeSort_singleton]
    rw [buildCitations, hs]
    rfl

end PubGrab
